import Mathlib

/-!
# upload-iam-certs: a shallow embedding of `main.go`

The program is a command-line adapter over three remote calls of the IAM
certificate API.  Everything it does is an effect: it reads files, calls the
remote service, writes to standard output and standard error, and terminates
the process.  The embedding therefore makes the effects explicit:

* the world outside the program is an `Env`: what `config.LoadDefaultConfig`,
  `iam.NewFromConfig` and `os.ReadFile` answer, and what `flag.Usage` writes;
* a run of a function is a `Run`: how it ended (`Res`) together with the
  ordered list of the effects it performed (`Event`);
* a Go pointer is an `Option`, and dereferencing `nil` ends the run with
  `Res.panic`;
* `os.Exit n` ends the run with `Res.exit n`.

The command line is modelled after `flag.Parse` has done its work, as the
record `Flags` of the seven flag values.  `time.Time` and its `String` method
belong to the Go standard library and are taken as parameters.
-/

namespace UploadIamCerts

/-! ## Errors -/

/-- A Go `error` value: either an error handed to the program by the
environment, or the `*fmt.wrapError` that `fmt.Errorf` builds for a `%w` verb
(the formatted message together with the wrapped error). -/
inductive Error where
  | leaf (msg : String)
  | wrapError (msg : String) (err : Error)
  deriving DecidableEq, Repr

/-- The method `Error()` of an error: its message. -/
def Error.text : Error → String
  | .leaf msg => msg
  | .wrapError msg _ => msg

/-- The method `Unwrap()`: the wrapped error, when there is one. -/
def Error.Unwrap : Error → Option Error
  | .leaf _ => none
  | .wrapError _ err => some err

/-- The call `fmt.Errorf(pre + "%w", err)`, the only shape of `fmt.Errorf`
in the program: the text before the verb, followed by the message of `err`,
and `err` kept as the wrapped error. -/
def Errorf (pre : String) (err : Error) : Error :=
  .wrapError (pre ++ err.text) err

/-! ## Records of the remote API -/

/-- The struct `iam.UploadServerCertificateInput`.  Its fields `Path` and
`Tags` are never set by the program and are left out. -/
structure UploadServerCertificateInput where
  ServerCertificateName : Option String
  CertificateBody : Option String
  PrivateKey : Option String
  CertificateChain : Option String
  deriving DecidableEq, Repr

/-- The struct `iam.DeleteServerCertificateInput`. -/
structure DeleteServerCertificateInput where
  ServerCertificateName : Option String
  deriving DecidableEq, Repr

/-- The struct `types.ServerCertificateMetadata`, with the four fields the
program reads.  All four are pointers in Go. -/
structure ServerCertificateMetadata (Time : Type) where
  ServerCertificateName : Option String
  ServerCertificateId : Option String
  Arn : Option String
  Expiration : Option Time

/-- The struct `iam.UploadServerCertificateOutput`; the metadata record is a
pointer. -/
structure UploadServerCertificateOutput (Time : Type) where
  ServerCertificateMetadata : Option (ServerCertificateMetadata Time)

/-- The struct `iam.ListServerCertificatesOutput`; the list is a slice of
records (not of pointers).  The pagination fields are never read. -/
structure ListServerCertificatesOutput (Time : Type) where
  ServerCertificateMetadataList : List (ServerCertificateMetadata Time)

/-- The `*iam.Client`: what the remote service answers to each of the three
operations the program uses. -/
structure Client (Time : Type) where
  UploadServerCertificate :
    UploadServerCertificateInput → Except Error (UploadServerCertificateOutput Time)
  ListServerCertificates : Except Error (ListServerCertificatesOutput Time)
  DeleteServerCertificate : DeleteServerCertificateInput → Except Error Unit

/-- The struct `CertUploader`. -/
structure CertUploader (Time : Type) where
  client : Client Time

/-- The value `aws.Config`, of which the program sets the region only. -/
structure Config where
  Region : String
  deriving DecidableEq, Repr

/-- The world outside the program. -/
structure Env (Time : Type) where
  /-- The answer of `config.LoadDefaultConfig(ctx, config.WithRegion(region))`. -/
  LoadDefaultConfig : String → Except Error Config
  /-- The client `iam.NewFromConfig(cfg)`. -/
  NewFromConfig : Config → Client Time
  /-- The answer of `os.ReadFile(name)`, the bytes read taken as a Go string. -/
  ReadFile : String → Except Error String
  /-- The text `flag.Usage()` writes to standard error. -/
  Usage : String
  /-- The method `String()` of `time.Time`. -/
  timeString : Time → String

/-! ## Runs -/

/-- An effect performed by the program, as seen from outside. -/
inductive Event where
  | LoadDefaultConfig (region : String)
  | ReadFile (name : String)
  | UploadServerCertificate (params : UploadServerCertificateInput)
  | ListServerCertificates
  | DeleteServerCertificate (params : DeleteServerCertificateInput)
  | Stdout (s : String)
  | Stderr (s : String)
  deriving DecidableEq, Repr

/-- How a piece of Go code ends: it returns a value, it panics (here always
by a nil pointer dereference), or it calls `os.Exit`. -/
inductive Res (α : Type) where
  | ret (a : α)
  | panic
  | exit (code : Nat)
  deriving DecidableEq, Repr

/-- A run: how it ended and the effects it performed, oldest first. -/
structure Run (α : Type) where
  res : Res α
  trace : List Event
  deriving DecidableEq, Repr

/-- Sequencing: the second part runs only when the first one returned. -/
def Run.bind {α β : Type} (m : Run α) (f : α → Run β) : Run β :=
  match m.res with
  | .ret a => ⟨(f a).res, m.trace ++ (f a).trace⟩
  | .panic => ⟨.panic, m.trace⟩
  | .exit code => ⟨.exit code, m.trace⟩

instance : Monad Run where
  pure a := ⟨.ret a, []⟩
  bind := Run.bind

/-- One effect, with the value it yields. -/
def Run.emit {α : Type} (e : Event) (a : α) : Run α := ⟨.ret a, [e]⟩

/-- The dereference `*p` of a pointer: a panic when `p` is `nil`. -/
def deref {α : Type} (p : Option α) : Run α :=
  match p with
  | some a => pure a
  | none => ⟨.panic, []⟩

/-- A write to `os.Stdout` (`fmt.Printf`, `fmt.Println`). -/
def Printf (s : String) : Run Unit := Run.emit (.Stdout s) ()

/-- A write to `os.Stderr` (`fmt.Fprintf(os.Stderr, ...)`). -/
def Eprintf (s : String) : Run Unit := Run.emit (.Stderr s) ()

/-- The call `os.Exit(code)`. -/
def osExit {α : Type} (code : Nat) : Run α := ⟨.exit code, []⟩

/-- The call `os.ReadFile(name)`. -/
def osReadFile {Time : Type} (env : Env Time) (name : String) : Run (Except Error String) :=
  Run.emit (.ReadFile name) (env.ReadFile name)

/-! ## The program -/

/-- The function `NewCertUploader`. -/
def NewCertUploader {Time : Type} (env : Env Time) (cfg : Config) : CertUploader Time :=
  { client := env.NewFromConfig cfg }

/-- Lines 53 to 64 of `UploadCertificate`: the remote call on the prepared
`input` and the report of its answer.  The arguments of each `fmt.Printf` are
evaluated, pointers dereferenced, before the line is written. -/
def UploadCertificate.send {Time : Type} (u : CertUploader Time)
    (input : UploadServerCertificateInput) : Run (Option Error) := do
  match ← Run.emit (.UploadServerCertificate input) (u.client.UploadServerCertificate input) with
  | .error err => pure (some (Errorf "failed to upload certificate: " err))
  | .ok output =>
    Printf "Certificate uploaded successfully!\n"
    let md ← deref output.ServerCertificateMetadata
    let name ← deref md.ServerCertificateName
    Printf ("Certificate Name: " ++ name ++ "\n")
    let md ← deref output.ServerCertificateMetadata
    let id ← deref md.ServerCertificateId
    Printf ("Certificate ID: " ++ id ++ "\n")
    let md ← deref output.ServerCertificateMetadata
    let arn ← deref md.Arn
    Printf ("ARN: " ++ arn ++ "\n")
    pure none

/-- The method `UploadCertificate`. -/
def UploadCertificate {Time : Type} (env : Env Time) (u : CertUploader Time)
    (certName certPath keyPath chainPath : String) : Run (Option Error) := do
  match ← osReadFile env certPath with
  | .error err => pure (some (Errorf "failed to read certificate: " err))
  | .ok certBody =>
    match ← osReadFile env keyPath with
    | .error err => pure (some (Errorf "failed to read private key: " err))
    | .ok privateKey =>
      let input : UploadServerCertificateInput :=
        { ServerCertificateName := some certName
          CertificateBody := some certBody
          PrivateKey := some privateKey
          CertificateChain := none }
      if chainPath ≠ "" then
        match ← osReadFile env chainPath with
        | .error err => pure (some (Errorf "failed to read certificate chain: " err))
        | .ok chainBody =>
          UploadCertificate.send u { input with CertificateChain := some chainBody }
      else
        UploadCertificate.send u input

/-- The loop body of `ListCertificates` run over the records in order. -/
def ListCertificates.loop {Time : Type} (env : Env Time) :
    List (ServerCertificateMetadata Time) → Run Unit
  | [] => pure ()
  | cert :: rest => do
    let name ← deref cert.ServerCertificateName
    Printf ("  - Name: " ++ name ++ "\n")
    let id ← deref cert.ServerCertificateId
    Printf ("    ID: " ++ id ++ "\n")
    let arn ← deref cert.Arn
    Printf ("    ARN: " ++ arn ++ "\n")
    let expiration ← deref cert.Expiration
    Printf ("    Expiration: " ++ env.timeString expiration ++ "\n\n")
    ListCertificates.loop env rest

/-- The method `ListCertificates`. -/
def ListCertificates {Time : Type} (env : Env Time) (u : CertUploader Time) :
    Run (Option Error) := do
  match ← Run.emit .ListServerCertificates u.client.ListServerCertificates with
  | .error err => pure (some (Errorf "failed to list certificates: " err))
  | .ok output =>
    if output.ServerCertificateMetadataList.length = 0 then
      Printf "No certificates found\n"
      pure none
    else
      Printf "Server Certificates:\n"
      ListCertificates.loop env output.ServerCertificateMetadataList
      pure none

/-- The method `DeleteCertificate`. -/
def DeleteCertificate {Time : Type} (u : CertUploader Time) (certName : String) :
    Run (Option Error) := do
  let input : DeleteServerCertificateInput := { ServerCertificateName := some certName }
  match ← Run.emit (.DeleteServerCertificate input) (u.client.DeleteServerCertificate input) with
  | .error err => pure (some (Errorf "failed to delete certificate: " err))
  | .ok _ =>
    Printf ("Certificate \x27" ++ certName ++ "\x27 deleted successfully!\n")
    pure none

/-- The values of the command-line flags after `flag.Parse()`. -/
structure Flags where
  name : String
  cert : String
  key : String
  chain : String
  list : Bool
  delete : Bool
  region : String
  deriving DecidableEq, Repr

/-- The flag values when the command line sets none: the defaults declared in
`main`. -/
def Flags.default : Flags :=
  { name := "", cert := "", key := "", chain := "", list := false, delete := false,
    region := "us-east-1" }

/-- The function `main`, from the line after `flag.Parse()`. -/
def main {Time : Type} (env : Env Time) (flags : Flags) : Run Unit := do
  match ← Run.emit (.LoadDefaultConfig flags.region) (env.LoadDefaultConfig flags.region) with
  | .error err =>
    Eprintf ("Failed to load AWS config: " ++ err.text ++ "\n")
    osExit 1
  | .ok cfg =>
    let uploader := NewCertUploader env cfg
    if flags.list then
      match ← ListCertificates env uploader with
      | some err =>
        Eprintf ("Error: " ++ err.text ++ "\n")
        osExit 1
      | none => pure ()
    else if flags.delete then
      if flags.name = "" then
        Eprintf "Error: -name is required for delete\n\n"
        Eprintf env.Usage
        osExit 1
      match ← DeleteCertificate uploader flags.name with
      | some err =>
        Eprintf ("Error: " ++ err.text ++ "\n")
        osExit 1
      | none => pure ()
    else
      if flags.name = "" ∨ flags.cert = "" ∨ flags.key = "" then
        Eprintf "Error: -name, -cert, and -key are required for upload\n\n"
        Eprintf env.Usage
        osExit 1
      match ← UploadCertificate env uploader flags.name flags.cert flags.key flags.chain with
      | some err =>
        Eprintf ("Error: " ++ err.text ++ "\n")
        osExit 1
      | none => pure ()

/-- The pattern `if err := op; err != nil` that `main` applies to each of the
three operations: a non-nil error is written to standard error and the
process exits with code 1.  Used to state how `main` decomposes. -/
def report (op : Run (Option Error)) : Run Unit := do
  match ← op with
  | some err =>
    Eprintf ("Error: " ++ err.text ++ "\n")
    osExit 1
  | none => pure ()

/-- The operation that `main` selects for the flags, once the configuration
`cfg` has loaded: list before delete before upload, and none when the selected
mode lacks a required flag.  Used to state the exit code of `main`. -/
def selected {Time : Type} (env : Env Time) (cfg : Config) (flags : Flags) :
    Option (Run (Option Error)) :=
  if flags.list then some (ListCertificates env (NewCertUploader env cfg))
  else if flags.delete then
    if flags.name = "" then none
    else some (DeleteCertificate (NewCertUploader env cfg) flags.name)
  else if flags.name = "" ∨ flags.cert = "" ∨ flags.key = "" then none
  else some (UploadCertificate env (NewCertUploader env cfg)
    flags.name flags.cert flags.key flags.chain)

/-- The exit status of the process for a run of `main`: 0 when `main`
returns, the argument of `os.Exit` when that is called, and 2 when the run
panics (the Go runtime prints the panic to standard error and exits with
status 2). -/
def exitCode (r : Res Unit) : Nat :=
  match r with
  | .ret _ => 0
  | .exit code => code
  | .panic => 2

/-- The writes to standard output in a trace, oldest first. -/
def stdout : List Event → List String
  | [] => []
  | .Stdout s :: t => s :: stdout t
  | _ :: t => stdout t

/-- The writes to standard error in a trace, oldest first. -/
def stderr : List Event → List String
  | [] => []
  | .Stderr s :: t => s :: stderr t
  | _ :: t => stderr t

/-- Whether an effect is a call of the remote API. -/
def Event.isRemote : Event → Bool
  | .UploadServerCertificate _ => true
  | .ListServerCertificates => true
  | .DeleteServerCertificate _ => true
  | _ => false

/-- Whether an effect is a file read. -/
def Event.isRead : Event → Bool
  | .ReadFile _ => true
  | _ => false

/-- The remote API calls in a trace, oldest first. -/
def remoteCalls (t : List Event) : List Event := t.filter Event.isRemote

/-- The file reads in a trace, oldest first. -/
def fileReads (t : List Event) : List Event := t.filter Event.isRead

/-! ## Records with every field present -/

/-- A certificate as the service describes it when no field is absent: the
contents of a `types.ServerCertificateMetadata` whose four pointers are set. -/
structure CertificateRecord (Time : Type) where
  name : String
  id : String
  arn : String
  expiration : Time

/-- The metadata record carrying a certificate: all four fields present. -/
def CertificateRecord.toMetadata {Time : Type} (c : CertificateRecord Time) :
    ServerCertificateMetadata Time :=
  { ServerCertificateName := some c.name
    ServerCertificateId := some c.id
    Arn := some c.arn
    Expiration := some c.expiration }

/-- The block of four lines that shows a certificate in a listing: its name,
id, ARN and expiration, the last followed by an empty line. -/
def CertificateRecord.block {Time : Type} (env : Env Time) (c : CertificateRecord Time) :
    List String :=
  ["  - Name: " ++ c.name ++ "\n",
   "    ID: " ++ c.id ++ "\n",
   "    ARN: " ++ c.arn ++ "\n",
   "    Expiration: " ++ env.timeString c.expiration ++ "\n\n"]

/-! ## Sample worlds

Concrete environments on which the statements below are evaluated.  Time is
a number of seconds, printed in decimal. -/

/-- A service that answers a list call with `list`, an upload with a record
`upload` echoing nothing of the request, and accepts every delete. -/
def sampleClient (list : Except Error (ListServerCertificatesOutput Nat))
    (upload : Except Error (UploadServerCertificateOutput Nat)) : Client Nat :=
  { UploadServerCertificate := fun _ => upload
    ListServerCertificates := list
    DeleteServerCertificate := fun _ => .ok () }

/-- A world in which the configuration loads, every file but `missing.pem`
is readable and holds its own name between brackets, and the service is
`sampleClient list upload`. -/
def sampleEnv (list : Except Error (ListServerCertificatesOutput Nat))
    (upload : Except Error (UploadServerCertificateOutput Nat)) : Env Nat :=
  { LoadDefaultConfig := fun region => .ok { Region := region }
    NewFromConfig := fun _ => sampleClient list upload
    ReadFile := fun name =>
      if name = "missing.pem" then .error (.leaf "open missing.pem: no such file or directory")
      else .ok ("[" ++ name ++ "]")
    Usage := "Usage of upload-iam-certs:\n"
    timeString := fun t => toString t }

/-- A world in which the configuration does not load. -/
def offlineEnv : Env Nat :=
  { sampleEnv (.ok ⟨[]⟩) (.ok ⟨none⟩) with
    LoadDefaultConfig := fun _ => .error (.leaf "no credentials") }

/-! ## Sequencing lemmas -/

theorem Run.bind_eq {α β : Type} (m : Run α) (f : α → Run β) : (m >>= f) = Run.bind m f := rfl

theorem Run.pure_eq {α : Type} (a : α) : (pure a : Run α) = ⟨.ret a, []⟩ := rfl

theorem remoteCalls_append (s t : List Event) :
    remoteCalls (s ++ t) = remoteCalls s ++ remoteCalls t := by
  simp [remoteCalls]

theorem fileReads_append (s t : List Event) :
    fileReads (s ++ t) = fileReads s ++ fileReads t := by
  simp [fileReads]

theorem stdout_append (s t : List Event) : stdout (s ++ t) = stdout s ++ stdout t := by
  induction s with
  | nil => rfl
  | cons e s ih => cases e <;> simp [stdout, ih]

theorem stderr_append (s t : List Event) : stderr (s ++ t) = stderr s ++ stderr t := by
  induction s with
  | nil => rfl
  | cons e s ih => cases e <;> simp [stderr, ih]

/-- How `report` ends, from how the operation ended. -/
theorem report_res (op : Run (Option Error)) :
    (report op).res = match op.res with
      | .ret none => .ret ()
      | .ret (some _) => .exit 1
      | .panic => .panic
      | .exit code => .exit code := by
  rcases op with ⟨(_ | _) | _ | _, t⟩ <;>
    simp [report, Run.bind_eq, Run.bind, Run.pure_eq, Run.emit, Eprintf, osExit]

/-- The effects of `report`: those of the operation, then the error line. -/
theorem report_trace (op : Run (Option Error)) :
    (report op).trace = op.trace ++ match op.res with
      | .ret (some err) => [.Stderr ("Error: " ++ err.text ++ "\n")]
      | _ => [] := by
  rcases op with ⟨(_ | _) | _ | _, t⟩ <;>
    simp [report, Run.bind_eq, Run.bind, Run.pure_eq, Run.emit, Eprintf, osExit]

/-! ## The paths of `main` -/

/-- The configuration does not load. -/
theorem main_config_error {Time : Type} (env : Env Time) (flags : Flags) (e : Error)
    (h : env.LoadDefaultConfig flags.region = .error e) :
    main env flags = ⟨.exit 1, [.LoadDefaultConfig flags.region,
      .Stderr ("Failed to load AWS config: " ++ e.text ++ "\n")]⟩ := by
  simp [main, Run.bind_eq, Run.bind, Run.pure_eq, Run.emit, Eprintf, osExit, h]

/-- The list path. -/
theorem main_list {Time : Type} (env : Env Time) (flags : Flags) (cfg : Config)
    (h : env.LoadDefaultConfig flags.region = .ok cfg) (hl : flags.list = true) :
    main env flags = Run.bind (Run.emit (.LoadDefaultConfig flags.region) ())
      (fun _ => report (ListCertificates env (NewCertUploader env cfg))) := by
  simp [main, report, Run.bind_eq, Run.bind, Run.pure_eq, Run.emit, Eprintf, osExit, h, hl]

/-- The delete path with a name. -/
theorem main_delete {Time : Type} (env : Env Time) (flags : Flags) (cfg : Config)
    (h : env.LoadDefaultConfig flags.region = .ok cfg) (hl : flags.list = false)
    (hd : flags.delete = true) (hn : flags.name ≠ "") :
    main env flags = Run.bind (Run.emit (.LoadDefaultConfig flags.region) ())
      (fun _ => report (DeleteCertificate (NewCertUploader env cfg) flags.name)) := by
  simp [main, report, Run.bind_eq, Run.bind, Run.pure_eq, Run.emit, Eprintf, osExit, h, hl, hd,
    hn]

/-- The delete path without a name. -/
theorem main_delete_usage {Time : Type} (env : Env Time) (flags : Flags) (cfg : Config)
    (h : env.LoadDefaultConfig flags.region = .ok cfg) (hl : flags.list = false)
    (hd : flags.delete = true) (hn : flags.name = "") :
    main env flags = ⟨.exit 1, [.LoadDefaultConfig flags.region,
      .Stderr "Error: -name is required for delete\n\n", .Stderr env.Usage]⟩ := by
  simp [main, Run.bind_eq, Run.bind, Run.pure_eq, Run.emit, Eprintf, osExit, h, hl, hd, hn]

/-- The upload path with its three required flags. -/
theorem main_upload {Time : Type} (env : Env Time) (flags : Flags) (cfg : Config)
    (h : env.LoadDefaultConfig flags.region = .ok cfg) (hl : flags.list = false)
    (hd : flags.delete = false)
    (hv : ¬ (flags.name = "" ∨ flags.cert = "" ∨ flags.key = "")) :
    main env flags = Run.bind (Run.emit (.LoadDefaultConfig flags.region) ())
      (fun _ => report (UploadCertificate env (NewCertUploader env cfg)
        flags.name flags.cert flags.key flags.chain)) := by
  simp [main, report, Run.bind_eq, Run.bind, Run.pure_eq, Run.emit, Eprintf, osExit, h, hl, hd,
    hv]

/-- The upload path with a required flag missing. -/
theorem main_upload_usage {Time : Type} (env : Env Time) (flags : Flags) (cfg : Config)
    (h : env.LoadDefaultConfig flags.region = .ok cfg) (hl : flags.list = false)
    (hd : flags.delete = false)
    (hv : flags.name = "" ∨ flags.cert = "" ∨ flags.key = "") :
    main env flags = ⟨.exit 1, [.LoadDefaultConfig flags.region,
      .Stderr "Error: -name, -cert, and -key are required for upload\n\n",
      .Stderr env.Usage]⟩ := by
  simp [main, Run.bind_eq, Run.bind, Run.pure_eq, Run.emit, Eprintf, osExit, h, hl, hd, hv]

/-! ## Upload: an unreadable certificate file (C2) -/

/-- With an unreadable certificate file, `UploadCertificate` performs the one
file read and returns the wrapped read error. -/
theorem UploadCertificate_cert_unreadable {Time : Type} (env : Env Time) (u : CertUploader Time)
    (certName certPath keyPath chainPath : String) (e : Error)
    (h : env.ReadFile certPath = .error e) :
    UploadCertificate env u certName certPath keyPath chainPath
      = ⟨.ret (some (Errorf "failed to read certificate: " e)), [.ReadFile certPath]⟩ := by
  simp [UploadCertificate, Run.bind_eq, Run.bind, Run.pure_eq, osReadFile, Run.emit, h]

/-- Claim C2.  When the file at `certPath` cannot be read (the read fails with
`e`), whatever the name and the other two paths: `UploadCertificate` returns a
non-nil error whose message is `failed to read certificate: ` followed by the
message of `e` and which wraps `e`; its run holds no remote call and no write
to standard output (it consists of the one file read); and `main`, run in
upload mode (neither `-list` nor `-delete`) with that path as `-cert`, ends
the process with exit code 1, whatever the other flags and the rest of the
environment. -/
theorem C2_upload_unreadable_cert {Time : Type} (env : Env Time) (u : CertUploader Time)
    (certName certPath keyPath chainPath : String) (e : Error)
    (h : env.ReadFile certPath = .error e) :
    (∃ err, (UploadCertificate env u certName certPath keyPath chainPath).res = .ret (some err)
        ∧ err.Unwrap = some e
        ∧ err.text = "failed to read certificate: " ++ e.text)
      ∧ remoteCalls (UploadCertificate env u certName certPath keyPath chainPath).trace = []
      ∧ stdout (UploadCertificate env u certName certPath keyPath chainPath).trace = []
      ∧ (UploadCertificate env u certName certPath keyPath chainPath).trace = [.ReadFile certPath]
      ∧ ∀ flags : Flags, flags.list = false → flags.delete = false → flags.cert = certPath →
          exitCode (main env flags).res = 1 ∧ exitCode (main env flags).res ≠ 0 := by
  rw [UploadCertificate_cert_unreadable env u certName certPath keyPath chainPath e h]
  refine ⟨⟨_, rfl, rfl, rfl⟩, rfl, rfl, rfl, ?_⟩
  intro flags hl hd hc
  subst hc
  have key : exitCode (main env flags).res = 1 := by
    unfold main
    cases hcfg : env.LoadDefaultConfig flags.region with
    | error err =>
      simp [Run.bind_eq, Run.bind, Run.pure_eq, Run.emit, hcfg, Eprintf, osExit, exitCode]
    | ok cfg =>
      by_cases hv : flags.name = "" ∨ flags.cert = "" ∨ flags.key = ""
      · simp [Run.bind_eq, Run.bind, Run.pure_eq, Run.emit, hcfg, Eprintf, osExit, exitCode,
          hl, hd, hv]
      · simp [Run.bind_eq, Run.bind, Run.pure_eq, Run.emit, hcfg, Eprintf, osExit, exitCode,
          hl, hd, hv, UploadCertificate_cert_unreadable env _ _ _ _ _ e h]
  exact ⟨key, by rw [key]; decide⟩

/-- Claim C2 on a sample world: `-name web -cert missing.pem -key key.pem`. -/
theorem C2_upload_unreadable_cert_witness :
    (UploadCertificate (sampleEnv (.ok ⟨[]⟩) (.ok ⟨none⟩)) ⟨sampleClient (.ok ⟨[]⟩) (.ok ⟨none⟩)⟩
        "web" "missing.pem" "key.pem" "").trace = [.ReadFile "missing.pem"]
      ∧ exitCode (main (sampleEnv (.ok ⟨[]⟩) (.ok ⟨none⟩))
          { Flags.default with name := "web", cert := "missing.pem", key := "key.pem" }).res = 1 :=
  have h := C2_upload_unreadable_cert (sampleEnv (.ok ⟨[]⟩) (.ok ⟨none⟩))
    ⟨sampleClient (.ok ⟨[]⟩) (.ok ⟨none⟩)⟩ "web" "missing.pem" "key.pem" ""
    (.leaf "open missing.pem: no such file or directory") rfl
  ⟨h.2.2.2.1, (h.2.2.2.2 _ rfl rfl rfl).1⟩

/-! ## List on an empty account (C4) -/

/-- A successful list answer with no record: the run of `ListCertificates`. -/
theorem ListCertificates_empty {Time : Type} (env : Env Time) (u : CertUploader Time)
    (output : ListServerCertificatesOutput Time)
    (hok : u.client.ListServerCertificates = .ok output)
    (hempty : output.ServerCertificateMetadataList = []) :
    ListCertificates env u
      = ⟨.ret none, [.ListServerCertificates, .Stdout "No certificates found\n"]⟩ := by
  simp [ListCertificates, Run.bind_eq, Run.bind, Run.pure_eq, Run.emit, Printf, hok, hempty]

/-- Claim C4.  When the remote list call succeeds with an empty metadata list,
`ListCertificates` returns nil and its writes to standard output are exactly
the one line `No certificates found` (its run is the remote call followed by
that write); and `main` run with `-list` in a world whose configuration loads
and whose client is that one ends with exit code 0, having written that one
line to standard output and nothing to standard error. -/
theorem C4_list_empty {Time : Type} (env : Env Time) (u : CertUploader Time)
    (output : ListServerCertificatesOutput Time)
    (hok : u.client.ListServerCertificates = .ok output)
    (hempty : output.ServerCertificateMetadataList = []) :
    (ListCertificates env u).res = .ret none
      ∧ stdout (ListCertificates env u).trace = ["No certificates found\n"]
      ∧ (ListCertificates env u).trace
          = [.ListServerCertificates, .Stdout "No certificates found\n"]
      ∧ ∀ (flags : Flags) (cfg : Config), flags.list = true →
          env.LoadDefaultConfig flags.region = .ok cfg → env.NewFromConfig cfg = u.client →
          exitCode (main env flags).res = 0
            ∧ stdout (main env flags).trace = ["No certificates found\n"]
            ∧ stderr (main env flags).trace = [] := by
  rw [ListCertificates_empty env u output hok hempty]
  refine ⟨rfl, rfl, rfl, ?_⟩
  intro flags cfg hl hcfg hu
  have hrun : ListCertificates env (NewCertUploader env cfg)
      = ⟨.ret none, [.ListServerCertificates, .Stdout "No certificates found\n"]⟩ :=
    ListCertificates_empty env _ output (by simpa [NewCertUploader, hu] using hok) hempty
  simp [main, Run.bind_eq, Run.bind, Run.pure_eq, Run.emit, hcfg, hl, hrun, exitCode,
    stdout, stderr]

/-- Claim C4 on a sample world: `-list` against an account without
certificates. -/
theorem C4_list_empty_witness :
    (ListCertificates (sampleEnv (.ok ⟨[]⟩) (.ok ⟨none⟩))
        ⟨sampleClient (.ok ⟨[]⟩) (.ok ⟨none⟩)⟩).trace
        = [.ListServerCertificates, .Stdout "No certificates found\n"]
      ∧ exitCode (main (sampleEnv (.ok ⟨[]⟩) (.ok ⟨none⟩))
          { Flags.default with list := true }).res = 0 :=
  have h := C4_list_empty (sampleEnv (.ok ⟨[]⟩) (.ok ⟨none⟩))
    ⟨sampleClient (.ok ⟨[]⟩) (.ok ⟨none⟩)⟩ ⟨[]⟩ rfl rfl
  ⟨h.2.2.1, (h.2.2.2 { Flags.default with list := true } ⟨"us-east-1"⟩ rfl rfl rfl).1⟩

/-! ## Upload: the report of a successful call (C5) -/

/-- The remote call and its report, when the answer carries a metadata record
with a name, an id and an ARN. -/
theorem UploadCertificate_send_ok {Time : Type} (u : CertUploader Time)
    (input : UploadServerCertificateInput) (name id arn : String) (expiration : Option Time)
    (hcall : u.client.UploadServerCertificate input
      = .ok ⟨some ⟨some name, some id, some arn, expiration⟩⟩) :
    UploadCertificate.send u input
      = ⟨.ret none,
          [.UploadServerCertificate input,
           .Stdout "Certificate uploaded successfully!\n",
           .Stdout ("Certificate Name: " ++ name ++ "\n"),
           .Stdout ("Certificate ID: " ++ id ++ "\n"),
           .Stdout ("ARN: " ++ arn ++ "\n")]⟩ := by
  simp [UploadCertificate.send, Run.bind_eq, Run.bind, Run.pure_eq, Run.emit, Printf, deref,
    hcall]

/-- The report of a successful upload whose answer has its fields.  When the
certificate file and the key file are readable, the chain file is readable if
a chain path is given, and the remote call on the request built from them
succeeds with a metadata record carrying the name `name`, the id `id` and the
ARN `arn`: `UploadCertificate` returns nil and its writes to standard output
are, in order, the success line and the three labelled lines
`Certificate Name: `, `Certificate ID: ` and `ARN: ` showing `name`, `id` and
`arn`, the values of the answer (the local `certName` appears in the request
only). -/
theorem UploadCertificate_success_report {Time : Type} (env : Env Time) (u : CertUploader Time)
    (certName certPath keyPath chainPath certBody privateKey chainBody : String)
    (name id arn : String) (expiration : Option Time)
    (hcert : env.ReadFile certPath = .ok certBody)
    (hkey : env.ReadFile keyPath = .ok privateKey)
    (hchain : chainPath ≠ "" → env.ReadFile chainPath = .ok chainBody)
    (hcall : u.client.UploadServerCertificate
        { ServerCertificateName := some certName
          CertificateBody := some certBody
          PrivateKey := some privateKey
          CertificateChain := if chainPath = "" then none else some chainBody }
      = .ok ⟨some ⟨some name, some id, some arn, expiration⟩⟩) :
    (UploadCertificate env u certName certPath keyPath chainPath).res = .ret none
      ∧ stdout (UploadCertificate env u certName certPath keyPath chainPath).trace
          = ["Certificate uploaded successfully!\n",
             "Certificate Name: " ++ name ++ "\n",
             "Certificate ID: " ++ id ++ "\n",
             "ARN: " ++ arn ++ "\n"] := by
  by_cases hc : chainPath = ""
  · simp only [hc, if_true] at hcall
    simp [UploadCertificate, Run.bind_eq, Run.bind, Run.pure_eq, osReadFile, Run.emit, hcert,
      hkey, hc, UploadCertificate_send_ok u _ name id arn expiration hcall, stdout]
  · simp only [hc, if_false] at hcall
    simp [UploadCertificate, Run.bind_eq, Run.bind, Run.pure_eq, osReadFile, Run.emit, hcert,
      hkey, hc, hchain hc, UploadCertificate_send_ok u _ name id arn expiration hcall, stdout]

/-- The lemma `UploadCertificate_success_report` on a sample world: the
certificate is uploaded as `web` with a chain file and the service answers
with the name `web-2024`. -/
theorem UploadCertificate_success_report_witness :
    stdout (UploadCertificate
        (sampleEnv (.ok ⟨[]⟩) (.ok ⟨some ⟨some "web-2024", some "ASCA1", some "arn:aws:iam::1:x", none⟩⟩))
        ⟨sampleClient (.ok ⟨[]⟩) (.ok ⟨some ⟨some "web-2024", some "ASCA1", some "arn:aws:iam::1:x", none⟩⟩)⟩
        "web" "cert.pem" "key.pem" "chain.pem").trace
      = ["Certificate uploaded successfully!\n", "Certificate Name: web-2024\n",
         "Certificate ID: ASCA1\n", "ARN: arn:aws:iam::1:x\n"] :=
  (UploadCertificate_success_report
    (sampleEnv (.ok ⟨[]⟩) (.ok ⟨some ⟨some "web-2024", some "ASCA1", some "arn:aws:iam::1:x", none⟩⟩))
    ⟨sampleClient (.ok ⟨[]⟩) (.ok ⟨some ⟨some "web-2024", some "ASCA1", some "arn:aws:iam::1:x", none⟩⟩)⟩
    "web" "cert.pem" "key.pem" "chain.pem" "[cert.pem]" "[key.pem]" "[chain.pem]"
    "web-2024" "ASCA1" "arn:aws:iam::1:x" none rfl rfl (fun _ => rfl) rfl).2

/-- Claim C5 fails on the code.  An upload with readable files whose remote
call succeeds with a metadata record that has a name and an id but no ARN
does not return nil: after the success line and the lines of the name and the
id, the dereference of the absent ARN panics, and no ARN line is written. -/
theorem C5_upload_absent_arn_panics :
    (sampleEnv (.ok ⟨[]⟩) (.ok ⟨some ⟨some "web-2024", some "ASCA1", none, none⟩⟩)).ReadFile
        "cert.pem" = .ok "[cert.pem]"
      ∧ (sampleEnv (.ok ⟨[]⟩) (.ok ⟨some ⟨some "web-2024", some "ASCA1", none, none⟩⟩)).ReadFile
        "key.pem" = .ok "[key.pem]"
      ∧ (sampleClient (.ok ⟨[]⟩)
          (.ok ⟨some ⟨some "web-2024", some "ASCA1", none, none⟩⟩)).UploadServerCertificate
          { ServerCertificateName := some "web"
            CertificateBody := some "[cert.pem]"
            PrivateKey := some "[key.pem]"
            CertificateChain := none }
        = .ok ⟨some ⟨some "web-2024", some "ASCA1", none, none⟩⟩
      ∧ (UploadCertificate
          (sampleEnv (.ok ⟨[]⟩) (.ok ⟨some ⟨some "web-2024", some "ASCA1", none, none⟩⟩))
          ⟨sampleClient (.ok ⟨[]⟩) (.ok ⟨some ⟨some "web-2024", some "ASCA1", none, none⟩⟩)⟩
          "web" "cert.pem" "key.pem" "").res = .panic
      ∧ stdout (UploadCertificate
          (sampleEnv (.ok ⟨[]⟩) (.ok ⟨some ⟨some "web-2024", some "ASCA1", none, none⟩⟩))
          ⟨sampleClient (.ok ⟨[]⟩) (.ok ⟨some ⟨some "web-2024", some "ASCA1", none, none⟩⟩)⟩
          "web" "cert.pem" "key.pem" "").trace
        = ["Certificate uploaded successfully!\n", "Certificate Name: web-2024\n",
           "Certificate ID: ASCA1\n"] :=
  ⟨rfl, rfl, rfl, rfl, rfl⟩

/-! ## Delete (C6) -/

/-- Claim C6.  For every name, the run of `DeleteCertificate` holds exactly
one remote call, a delete call carrying that name.  The remote call fails if
and only if the function returns a non-nil error and writes nothing to
standard output; the error returned then wraps the remote error, with the
message `failed to delete certificate: ` before its message.  When the remote
call succeeds the function returns nil and its one write to standard output
is the confirmation `Certificate \x27<certName>\x27 deleted successfully!`. -/
theorem C6_delete {Time : Type} (u : CertUploader Time) (certName : String) :
    remoteCalls (DeleteCertificate u certName).trace
        = [.DeleteServerCertificate { ServerCertificateName := some certName }]
      ∧ ((∃ e, u.client.DeleteServerCertificate { ServerCertificateName := some certName }
              = .error e)
          ↔ ∃ err, (DeleteCertificate u certName).res = .ret (some err)
              ∧ stdout (DeleteCertificate u certName).trace = [])
      ∧ (∀ e, u.client.DeleteServerCertificate { ServerCertificateName := some certName }
              = .error e →
          (DeleteCertificate u certName).res
              = .ret (some (Errorf "failed to delete certificate: " e))
            ∧ (Errorf "failed to delete certificate: " e).Unwrap = some e
            ∧ stdout (DeleteCertificate u certName).trace = [])
      ∧ (u.client.DeleteServerCertificate { ServerCertificateName := some certName } = .ok () →
          (DeleteCertificate u certName).res = .ret none
            ∧ stdout (DeleteCertificate u certName).trace
                = ["Certificate \x27" ++ certName ++ "\x27 deleted successfully!\n"]) := by
  cases h : u.client.DeleteServerCertificate { ServerCertificateName := some certName } with
  | error e =>
    simp [DeleteCertificate, Run.bind_eq, Run.bind, Run.pure_eq, Run.emit, Printf, h,
      remoteCalls, Event.isRemote, stdout, Errorf, Error.Unwrap]
  | ok v =>
    simp [DeleteCertificate, Run.bind_eq, Run.bind, Run.pure_eq, Run.emit, Printf, h,
      remoteCalls, Event.isRemote, stdout]

/-- Claim C6 on a sample world: deleting `web` on a service that accepts. -/
theorem C6_delete_witness :
    (DeleteCertificate ⟨sampleClient (.ok ⟨[]⟩) (.ok ⟨none⟩)⟩ "web").res = .ret none
      ∧ stdout (DeleteCertificate ⟨sampleClient (.ok ⟨[]⟩) (.ok ⟨none⟩)⟩ "web").trace
          = ["Certificate \x27web\x27 deleted successfully!\n"] :=
  (C6_delete ⟨sampleClient (.ok ⟨[]⟩) (.ok ⟨none⟩)⟩ "web").2.2.2 rfl

/-! ## Upload: the request sent (C7) -/

/-- The remote calls and file reads of the call-and-report part of an upload,
whatever the service answers: the one upload call and no file read; and it
never exits the process. -/
theorem UploadCertificate_send_calls {Time : Type} (u : CertUploader Time)
    (input : UploadServerCertificateInput) :
    remoteCalls (UploadCertificate.send u input).trace = [.UploadServerCertificate input]
      ∧ fileReads (UploadCertificate.send u input).trace = []
      ∧ ∀ code, (UploadCertificate.send u input).res ≠ .exit code := by
  unfold UploadCertificate.send
  cases h : u.client.UploadServerCertificate input with
  | error e =>
    simp [Run.bind_eq, Run.bind, Run.pure_eq, Run.emit, h, remoteCalls, fileReads,
      Event.isRemote, Event.isRead]
  | ok output =>
    rcases output with ⟨_ | ⟨_ | name, _ | id, _ | arn, expiration⟩⟩ <;>
      simp [Run.bind_eq, Run.bind, Run.pure_eq, Run.emit, h, Printf, deref, remoteCalls,
        fileReads, Event.isRemote, Event.isRead]

/-- Claim C7.  For every upload: (1) every upload request found in the run of
`UploadCertificate` has the name `certName`, the certificate body equal to the
contents of the file at `certPath`, the private key equal to the contents of
the file at `keyPath`, a certificate chain that is present if and only if
`chainPath` is not empty and then equals the contents of the file at
`chainPath`, and it is the only remote call of the run; (2) when the files are
readable the remote calls of the run are exactly that one request; (3) when
`chainPath` is not empty and its file cannot be read, the run holds no remote
call and the function returns a non-nil error. -/
theorem C7_upload_request {Time : Type} (env : Env Time) (u : CertUploader Time)
    (certName certPath keyPath chainPath : String) :
    (∀ input, .UploadServerCertificate input
          ∈ (UploadCertificate env u certName certPath keyPath chainPath).trace →
        input.ServerCertificateName = some certName
          ∧ (∃ body, env.ReadFile certPath = .ok body ∧ input.CertificateBody = some body)
          ∧ (∃ key, env.ReadFile keyPath = .ok key ∧ input.PrivateKey = some key)
          ∧ (input.CertificateChain ≠ none ↔ chainPath ≠ "")
          ∧ (chainPath ≠ "" →
              ∃ chain, env.ReadFile chainPath = .ok chain ∧ input.CertificateChain = some chain)
          ∧ remoteCalls (UploadCertificate env u certName certPath keyPath chainPath).trace
              = [.UploadServerCertificate input])
      ∧ (∀ body key chain, env.ReadFile certPath = .ok body → env.ReadFile keyPath = .ok key →
          (chainPath ≠ "" → env.ReadFile chainPath = .ok chain) →
          remoteCalls (UploadCertificate env u certName certPath keyPath chainPath).trace
            = [.UploadServerCertificate
                { ServerCertificateName := some certName
                  CertificateBody := some body
                  PrivateKey := some key
                  CertificateChain := if chainPath = "" then none else some chain }])
      ∧ (∀ e, chainPath ≠ "" → env.ReadFile chainPath = .error e →
          remoteCalls (UploadCertificate env u certName certPath keyPath chainPath).trace = []
            ∧ ∃ err, (UploadCertificate env u certName certPath keyPath chainPath).res
                = .ret (some err)) := by
  have hsend := fun input => UploadCertificate_send_calls u input
  have hmem : ∀ input sent, Event.UploadServerCertificate input
      ∈ (UploadCertificate.send u sent).trace → input = sent := by
    intro input sent h
    have h2 : Event.UploadServerCertificate input
        ∈ remoteCalls (UploadCertificate.send u sent).trace :=
      List.mem_filter.2 ⟨h, rfl⟩
    rw [(hsend sent).1] at h2
    simpa using h2
  have hr : ∀ name t, remoteCalls (Event.ReadFile name :: t) = remoteCalls t :=
    fun name t => by simp [remoteCalls, Event.isRemote]
  cases hc : env.ReadFile certPath with
  | error e =>
    simp [UploadCertificate, Run.bind_eq, Run.bind, Run.pure_eq, osReadFile, Run.emit, hc,
      remoteCalls, Event.isRemote]
  | ok body =>
    cases hk : env.ReadFile keyPath with
    | error e =>
      simp [UploadCertificate, Run.bind_eq, Run.bind, Run.pure_eq, osReadFile, Run.emit, hc, hk,
        remoteCalls, Event.isRemote]
    | ok key =>
      by_cases hp : chainPath = ""
      · simp [UploadCertificate, Run.bind_eq, Run.bind, Run.pure_eq, osReadFile, Run.emit, hc,
          hk, hp, remoteCalls_append, hsend]
        refine ⟨fun input hin => ?_, ?_⟩
        · have hi := hmem _ _ hin
          subst hi
          simp [hr, hsend]
        · simp [hr, hsend]
      · cases hch : env.ReadFile chainPath with
        | error e =>
          simp [UploadCertificate, Run.bind_eq, Run.bind, Run.pure_eq, osReadFile, Run.emit, hc,
            hk, hp, hch, remoteCalls, Event.isRemote]
        | ok chain =>
          simp [UploadCertificate, Run.bind_eq, Run.bind, Run.pure_eq, osReadFile, Run.emit, hc,
            hk, hp, hch, remoteCalls_append, hsend]
          refine ⟨fun input hin => ?_, ?_⟩
          · have hi := hmem _ _ hin
            subst hi
            simp [hr, hsend]
          · simp [hr, hsend]

/-- Claim C7 on a sample world: an upload of `web` with a chain file sends the
contents of the three files. -/
theorem C7_upload_request_witness :
    remoteCalls (UploadCertificate (sampleEnv (.ok ⟨[]⟩) (.ok ⟨none⟩))
        ⟨sampleClient (.ok ⟨[]⟩) (.ok ⟨none⟩)⟩ "web" "cert.pem" "key.pem" "chain.pem").trace
      = [.UploadServerCertificate
          { ServerCertificateName := some "web"
            CertificateBody := some "[cert.pem]"
            PrivateKey := some "[key.pem]"
            CertificateChain := some "[chain.pem]" }] :=
  (C7_upload_request (sampleEnv (.ok ⟨[]⟩) (.ok ⟨none⟩))
    ⟨sampleClient (.ok ⟨[]⟩) (.ok ⟨none⟩)⟩ "web" "cert.pem" "key.pem" "chain.pem").2.1
    "[cert.pem]" "[key.pem]" "[chain.pem]" rfl rfl (fun _ => rfl)

/-! ## List: the records printed (C8) -/

/-- The loop over records that have every field: one block per record. -/
theorem ListCertificates_loop_present {Time : Type} (env : Env Time)
    (recs : List (CertificateRecord Time)) :
    ListCertificates.loop env (recs.map CertificateRecord.toMetadata)
      = ⟨.ret (), ((recs.map (CertificateRecord.block env)).flatten).map Event.Stdout⟩ := by
  induction recs with
  | nil => rfl
  | cons c recs ih =>
    simp [ListCertificates.loop, CertificateRecord.toMetadata, CertificateRecord.block,
      Run.bind_eq, Run.bind, Run.pure_eq, Run.emit, Printf, deref] at ih ⊢
    simp [ih]

/-- No line of a record block is the line `No certificates found`. -/
theorem CertificateRecord.block_ne {Time : Type} (env : Env Time) (c : CertificateRecord Time) :
    "No certificates found\n" ∉ CertificateRecord.block env c := by
  have key : ∀ a b : String, a.data.head? = some ' ' → "No certificates found\n" ≠ a ++ b := by
    intro a b ha h
    have h2 := congrArg (fun s => s.data.head?) h
    cases hd : a.data with
    | nil => simp [hd] at ha
    | cons x xs => simp [hd] at ha; simp [String.data_append, hd, ha] at h2
  simp only [CertificateRecord.block, List.mem_cons, List.mem_singleton, List.not_mem_nil,
    or_false, not_or, String.append_assoc]
  exact ⟨key _ _ rfl, key _ _ rfl, key _ _ rfl, key _ _ rfl⟩

/-- The blocks of n records hold 4 n lines. -/
theorem CertificateRecord.blocks_length {Time : Type} (env : Env Time)
    (recs : List (CertificateRecord Time)) :
    ((recs.map (CertificateRecord.block env)).flatten).length = 4 * recs.length := by
  induction recs with
  | nil => rfl
  | cons c recs ih =>
    simp only [List.map_cons, List.flatten_cons, List.length_append, ih, List.length_cons]
    simp only [CertificateRecord.block, List.length_cons, List.length_nil]
    omega

theorem stdout_map_Stdout (outs : List String) : stdout (outs.map Event.Stdout) = outs := by
  induction outs with
  | nil => rfl
  | cons s t ih => simp [stdout, ih]

/-- Claim C8.  When the remote list call succeeds with a non-empty list of
records whose name, id, ARN and expiration are all present (the records
`recs`, n of them): `ListCertificates` returns nil; its writes to standard
output are the header `Server Certificates:` followed by the n record blocks,
one per record in the order of the answer, each block showing the name, the
id, the ARN and the expiration of its record; that is 1 + 4 n lines; and the
line `No certificates found` is not among them. -/
theorem C8_list_records {Time : Type} (env : Env Time) (u : CertUploader Time)
    (output : ListServerCertificatesOutput Time) (recs : List (CertificateRecord Time))
    (hok : u.client.ListServerCertificates = .ok output)
    (hrecs : output.ServerCertificateMetadataList = recs.map CertificateRecord.toMetadata)
    (hne : recs ≠ []) :
    (ListCertificates env u).res = .ret none
      ∧ stdout (ListCertificates env u).trace
          = "Server Certificates:\n" :: (recs.map (CertificateRecord.block env)).flatten
      ∧ (recs.map (CertificateRecord.block env)).length = recs.length
      ∧ (stdout (ListCertificates env u).trace).length = 1 + 4 * recs.length
      ∧ "No certificates found\n" ∉ stdout (ListCertificates env u).trace
      ∧ (ListCertificates env u).trace
          = .ListServerCertificates :: .Stdout "Server Certificates:\n"
              :: ((recs.map (CertificateRecord.block env)).flatten).map Event.Stdout := by
  have hrun : ListCertificates env u
      = ⟨.ret none, .ListServerCertificates :: .Stdout "Server Certificates:\n"
          :: ((recs.map (CertificateRecord.block env)).flatten).map Event.Stdout⟩ := by
    simp [ListCertificates, Run.bind_eq, Run.bind, Run.pure_eq, Run.emit, Printf, hok, hrecs,
      hne, ListCertificates_loop_present]
  have hlen := CertificateRecord.blocks_length env recs
  rw [hrun]
  refine ⟨rfl, ?_, by simp, ?_, ?_, rfl⟩
  · simp only [stdout, stdout_map_Stdout]
  · simp only [stdout, stdout_map_Stdout, List.length_cons, hlen]
    omega
  · simp only [stdout, stdout_map_Stdout, List.mem_cons, List.mem_flatten, List.mem_map, not_or]
    refine ⟨by decide, ?_⟩
    rintro ⟨l, ⟨c, -, rfl⟩, hin⟩
    exact CertificateRecord.block_ne env c hin


/-- Claim C8 on a sample world: an account with the two certificates `web`
and `api`. -/
theorem C8_list_records_witness :
    stdout (ListCertificates
        (sampleEnv (.ok ⟨[⟨some "web", some "ASCA1", some "arn:1", some 5⟩,
          ⟨some "api", some "ASCA2", some "arn:2", some 7⟩]⟩) (.ok ⟨none⟩))
        ⟨sampleClient (.ok ⟨[⟨some "web", some "ASCA1", some "arn:1", some 5⟩,
          ⟨some "api", some "ASCA2", some "arn:2", some 7⟩]⟩) (.ok ⟨none⟩)⟩).trace
      = ["Server Certificates:\n",
         "  - Name: web\n", "    ID: ASCA1\n", "    ARN: arn:1\n", "    Expiration: 5\n\n",
         "  - Name: api\n", "    ID: ASCA2\n", "    ARN: arn:2\n", "    Expiration: 7\n\n"] :=
  (C8_list_records
    (sampleEnv (.ok ⟨[⟨some "web", some "ASCA1", some "arn:1", some 5⟩,
      ⟨some "api", some "ASCA2", some "arn:2", some 7⟩]⟩) (.ok ⟨none⟩))
    ⟨sampleClient (.ok ⟨[⟨some "web", some "ASCA1", some "arn:1", some 5⟩,
      ⟨some "api", some "ASCA2", some "arn:2", some 7⟩]⟩) (.ok ⟨none⟩)⟩
    ⟨[⟨some "web", some "ASCA1", some "arn:1", some 5⟩,
      ⟨some "api", some "ASCA2", some "arn:2", some 7⟩]⟩
    [⟨"web", "ASCA1", "arn:1", 5⟩, ⟨"api", "ASCA2", "arn:2", 7⟩]
    rfl rfl (List.cons_ne_nil _ _)).2.1

/-! ## The remote calls and file reads of each operation -/

theorem remoteCalls_nil : remoteCalls [] = [] := rfl

theorem fileReads_nil : fileReads [] = [] := rfl

theorem remoteCalls_cons (e : Event) (t : List Event) :
    remoteCalls (e :: t) = if e.isRemote then e :: remoteCalls t else remoteCalls t := by
  simp [remoteCalls, List.filter_cons]

theorem fileReads_cons (e : Event) (t : List Event) :
    fileReads (e :: t) = if e.isRead then e :: fileReads t else fileReads t := by
  simp [fileReads, List.filter_cons]

/-- The loop of `ListCertificates` calls nothing and reads nothing, whether it
completes or panics; and it never exits the process. -/
theorem ListCertificates_loop_calls {Time : Type} (env : Env Time)
    (certs : List (ServerCertificateMetadata Time)) :
    remoteCalls (ListCertificates.loop env certs).trace = []
      ∧ fileReads (ListCertificates.loop env certs).trace = []
      ∧ ∀ code, (ListCertificates.loop env certs).res ≠ .exit code := by
  induction certs with
  | nil => simp [ListCertificates.loop, Run.pure_eq, remoteCalls, fileReads]
  | cons cert rest ih =>
    obtain ⟨ih1, ih2, ih3⟩ := ih
    rcases cert with ⟨_ | name, _ | id, _ | arn, _ | expiration⟩ <;>
      simp [ListCertificates.loop, Run.bind_eq, Run.bind, Run.pure_eq, Run.emit, Printf, deref,
        remoteCalls, fileReads, Event.isRemote, Event.isRead]
    refine ⟨?_, ?_, ?_⟩
    · simpa [remoteCalls] using ih1
    · simpa [fileReads] using ih2
    · exact ih3

/-- The method `ListCertificates` makes the one list call and reads no file,
whatever the service answers; and it never exits the process. -/
theorem ListCertificates_calls {Time : Type} (env : Env Time) (u : CertUploader Time) :
    remoteCalls (ListCertificates env u).trace = [.ListServerCertificates]
      ∧ fileReads (ListCertificates env u).trace = []
      ∧ ∀ code, (ListCertificates env u).res ≠ .exit code := by
  have hloop := fun certs => ListCertificates_loop_calls env certs
  unfold ListCertificates
  cases h : u.client.ListServerCertificates with
  | error e =>
    simp [Run.bind_eq, Run.bind, Run.pure_eq, Run.emit, h, remoteCalls, fileReads,
      Event.isRemote, Event.isRead]
  | ok output =>
    by_cases hlen : output.ServerCertificateMetadataList = []
    · simp [Run.bind_eq, Run.bind, Run.pure_eq, Run.emit, h, hlen, Printf, remoteCalls,
        fileReads, Event.isRemote, Event.isRead]
    · obtain ⟨h1, h2, h3⟩ := hloop output.ServerCertificateMetadataList
      rcases hres : ListCertificates.loop env output.ServerCertificateMetadataList
        with ⟨_ | _ | code, t⟩
      all_goals
        rw [hres] at h1 h2 h3
        simp [Run.bind_eq, Run.bind, Run.pure_eq, Run.emit, h, hlen, Printf, hres] at h1 h2 h3 ⊢
      all_goals simp [remoteCalls_nil, fileReads_nil, remoteCalls_cons, fileReads_cons, Event.isRemote, Event.isRead, h1, h2]

/-- The method `DeleteCertificate` makes the one delete call and reads no
file; and it never exits the process. -/
theorem DeleteCertificate_calls {Time : Type} (u : CertUploader Time) (certName : String) :
    remoteCalls (DeleteCertificate u certName).trace
        = [.DeleteServerCertificate { ServerCertificateName := some certName }]
      ∧ fileReads (DeleteCertificate u certName).trace = []
      ∧ ∀ code, (DeleteCertificate u certName).res ≠ .exit code := by
  cases h : u.client.DeleteServerCertificate { ServerCertificateName := some certName } <;>
    simp [DeleteCertificate, Run.bind_eq, Run.bind, Run.pure_eq, Run.emit, Printf, h,
      remoteCalls_nil, fileReads_nil, remoteCalls_cons, fileReads_cons, Event.isRemote, Event.isRead]

/-- The method `UploadCertificate` makes no remote call or the one upload
call; and it never exits the process. -/
theorem UploadCertificate_calls {Time : Type} (env : Env Time) (u : CertUploader Time)
    (certName certPath keyPath chainPath : String) :
    (remoteCalls (UploadCertificate env u certName certPath keyPath chainPath).trace = []
        ∨ ∃ input, remoteCalls (UploadCertificate env u certName certPath keyPath chainPath).trace
            = [.UploadServerCertificate input])
      ∧ ∀ code, (UploadCertificate env u certName certPath keyPath chainPath).res ≠ .exit code := by
  have hsend := fun input => UploadCertificate_send_calls u input
  unfold UploadCertificate
  cases hc : env.ReadFile certPath with
  | error e =>
    simp [Run.bind_eq, Run.bind, Run.pure_eq, osReadFile, Run.emit, hc, remoteCalls_nil, remoteCalls_cons,
      Event.isRemote]
  | ok body =>
    cases hk : env.ReadFile keyPath with
    | error e =>
      simp [Run.bind_eq, Run.bind, Run.pure_eq, osReadFile, Run.emit, hc, hk, remoteCalls_nil, remoteCalls_cons,
        Event.isRemote]
    | ok key =>
      by_cases hp : chainPath = ""
      · simp [Run.bind_eq, Run.bind, Run.pure_eq, osReadFile, Run.emit, hc, hk, hp,
          remoteCalls_nil, remoteCalls_cons, Event.isRemote, hsend]
      · cases hch : env.ReadFile chainPath with
        | error e =>
          simp [Run.bind_eq, Run.bind, Run.pure_eq, osReadFile, Run.emit, hc, hk, hp, hch,
            remoteCalls_nil, remoteCalls_cons, Event.isRemote]
        | ok chain =>
          simp [Run.bind_eq, Run.bind, Run.pure_eq, osReadFile, Run.emit, hc, hk, hp, hch,
            remoteCalls_nil, remoteCalls_cons, Event.isRemote, hsend]


/-! ## The exit code and the calls of `main` -/

/-- Loading the configuration and then reporting an operation. -/
theorem boot_report (region : String) (op : Run (Option Error)) :
    Run.bind (Run.emit (.LoadDefaultConfig region) ()) (fun _ => report op)
      = ⟨(report op).res, .LoadDefaultConfig region :: (report op).trace⟩ := rfl

/-- Reporting an operation adds no remote call. -/
theorem remoteCalls_report (op : Run (Option Error)) :
    remoteCalls (report op).trace = remoteCalls op.trace := by
  rw [report_trace, remoteCalls_append]
  rcases op with ⟨(_ | _) | _ | _, t⟩ <;>
    simp [remoteCalls_nil, remoteCalls_cons, Event.isRemote]

/-- Reporting an operation adds no file read. -/
theorem fileReads_report (op : Run (Option Error)) :
    fileReads (report op).trace = fileReads op.trace := by
  rw [report_trace, fileReads_append]
  rcases op with ⟨(_ | _) | _ | _, t⟩ <;>
    simp [fileReads_nil, fileReads_cons, Event.isRead]

/-! ## Delete without a name (C3) -/

/-- Claim C3 does not hold for every choice of the other flags and the
environment.  With `-list -delete` and no `-name`, on an account without
certificates, `main` lists: it ends with exit code 0 and writes nothing to
standard error.  And with `-delete` alone in a world whose configuration does
not load, what standard error receives is the configuration error, not the
usage error. -/
theorem C3_counterexample :
    ({ Flags.default with list := true, delete := true } : Flags).delete = true
      ∧ ({ Flags.default with list := true, delete := true } : Flags).name = ""
      ∧ main (sampleEnv (.ok ⟨[]⟩) (.ok ⟨none⟩)) { Flags.default with list := true, delete := true }
          = ⟨.ret (), [.LoadDefaultConfig "us-east-1", .ListServerCertificates,
              .Stdout "No certificates found\n"]⟩
      ∧ exitCode (main (sampleEnv (.ok ⟨[]⟩) (.ok ⟨none⟩))
          { Flags.default with list := true, delete := true }).res = 0
      ∧ stderr (main (sampleEnv (.ok ⟨[]⟩) (.ok ⟨none⟩))
          { Flags.default with list := true, delete := true }).trace = []
      ∧ stderr (main offlineEnv { Flags.default with delete := true }).trace
          = ["Failed to load AWS config: no credentials\n"] :=
  ⟨rfl, rfl, rfl, rfl, rfl, rfl⟩

/-- Claim C3, amended.  For every invocation with `-delete` set and `-name`
empty, whatever the other flags and the environment, the run of `main` holds
no call of the remote delete API.  When moreover `-list` is unset, the process
exits with code 1 after a write to standard error; and when the
configuration has loaded, the run is the usage error: the line
`Error: -name is required for delete` followed by the usage text, then exit
code 1. -/
theorem C3_delete_without_name {Time : Type} (env : Env Time) (flags : Flags)
    (hd : flags.delete = true) (hn : flags.name = "") :
    (∀ params, .DeleteServerCertificate params ∉ (main env flags).trace)
      ∧ (flags.list = false →
          exitCode (main env flags).res = 1 ∧ stderr (main env flags).trace ≠ [])
      ∧ (flags.list = false → ∀ cfg, env.LoadDefaultConfig flags.region = .ok cfg →
          main env flags = ⟨.exit 1, [.LoadDefaultConfig flags.region,
            .Stderr "Error: -name is required for delete\n\n", .Stderr env.Usage]⟩
          ∧ stderr (main env flags).trace
              = ["Error: -name is required for delete\n\n", env.Usage]) := by
  cases hcfg : env.LoadDefaultConfig flags.region with
  | error e =>
    rw [main_config_error env flags e hcfg]
    simp [exitCode, stderr]
  | ok cfg =>
    cases hl : flags.list with
    | false =>
      rw [main_delete_usage env flags cfg hcfg hl hd hn]
      simp [exitCode, stderr]
    | true =>
      rw [main_list env flags cfg hcfg hl, boot_report]
      simp only [false_implies, and_true, Bool.true_eq_false]
      intro params hin
      have h2 : Event.DeleteServerCertificate params
          ∈ remoteCalls (Event.LoadDefaultConfig flags.region
              :: (report (ListCertificates env (NewCertUploader env cfg))).trace) :=
        List.mem_filter.2 ⟨hin, rfl⟩
      rw [remoteCalls_cons] at h2
      simp [Event.isRemote, remoteCalls_report, (ListCertificates_calls env _).1] at h2


/-- Claim C3, amended, on a sample world: `-delete` alone. -/
theorem C3_delete_without_name_witness :
    (main (sampleEnv (.ok ⟨[]⟩) (.ok ⟨none⟩)) { Flags.default with delete := true }).res = .exit 1
      ∧ stderr (main (sampleEnv (.ok ⟨[]⟩) (.ok ⟨none⟩))
          { Flags.default with delete := true }).trace
        = ["Error: -name is required for delete\n\n", "Usage of upload-iam-certs:\n"] :=
  have h := (C3_delete_without_name (sampleEnv (.ok ⟨[]⟩) (.ok ⟨none⟩))
    { Flags.default with delete := true } rfl rfl).2.2 rfl ⟨"us-east-1"⟩ rfl
  ⟨congrArg Run.res h.1, h.2⟩

/-! ## Mode selection (C9) -/

/-- The list mode: with `-list`, the only remote call is the list call, no
file is read, and the run does not depend on the other flags but the region. -/
theorem main_list_mode {Time : Type} (env : Env Time) (flags : Flags)
    (hl : flags.list = true) :
    (∀ e ∈ remoteCalls (main env flags).trace, e = .ListServerCertificates)
      ∧ fileReads (main env flags).trace = []
      ∧ (∀ cfg, env.LoadDefaultConfig flags.region = .ok cfg →
          remoteCalls (main env flags).trace = [.ListServerCertificates])
      ∧ (∀ (name cert key chain : String) (delete : Bool),
          main env { flags with name := name, cert := cert, key := key, chain := chain,
                                delete := delete } = main env flags) := by
  cases hcfg : env.LoadDefaultConfig flags.region with
  | error e =>
    refine ⟨?_, ?_, ?_, ?_⟩
    · simp [main_config_error env flags e hcfg, remoteCalls_nil, remoteCalls_cons,
        Event.isRemote]
    · simp [main_config_error env flags e hcfg, fileReads_nil, fileReads_cons, Event.isRead]
    · intro cfg h; cases h
    · intro name cert key chain delete
      exact (main_config_error env
        { flags with name := name, cert := cert, key := key, chain := chain, delete := delete }
        e hcfg).trans (main_config_error env flags e hcfg).symm
  | ok cfg =>
    have hcalls : remoteCalls (main env flags).trace = [.ListServerCertificates] := by
      rw [main_list env flags cfg hcfg hl, boot_report, remoteCalls_cons]
      simp [Event.isRemote, remoteCalls_report, (ListCertificates_calls env _).1]
    refine ⟨?_, ?_, ?_, ?_⟩
    · simp [hcalls]
    · rw [main_list env flags cfg hcfg hl, boot_report, fileReads_cons]
      simp [Event.isRead, fileReads_report, (ListCertificates_calls env _).2.1]
    · intro _ _; exact hcalls
    · intro name cert key chain delete
      exact (main_list env
        { flags with name := name, cert := cert, key := key, chain := chain, delete := delete }
        cfg hcfg hl).trans (main_list env flags cfg hcfg hl).symm

/-- The delete mode: with `-delete` and without `-list`, the only remote call
is the delete call for `-name`, no file is read, and the run does not depend
on `-cert`, `-key` and `-chain`. -/
theorem main_delete_mode {Time : Type} (env : Env Time) (flags : Flags)
    (hl : flags.list = false) (hd : flags.delete = true) :
    (∀ e ∈ remoteCalls (main env flags).trace,
        e = .DeleteServerCertificate { ServerCertificateName := some flags.name })
      ∧ fileReads (main env flags).trace = []
      ∧ (∀ cfg, env.LoadDefaultConfig flags.region = .ok cfg → flags.name ≠ "" →
          remoteCalls (main env flags).trace
            = [.DeleteServerCertificate { ServerCertificateName := some flags.name }])
      ∧ (flags.name = "" → (main env flags).res = .exit 1
          ∧ remoteCalls (main env flags).trace = [])
      ∧ (∀ (cert key chain : String),
          main env { flags with cert := cert, key := key, chain := chain } = main env flags) := by
  cases hcfg : env.LoadDefaultConfig flags.region with
  | error e =>
    refine ⟨?_, ?_, ?_, ?_, ?_⟩
    · simp [main_config_error env flags e hcfg, remoteCalls_nil, remoteCalls_cons,
        Event.isRemote]
    · simp [main_config_error env flags e hcfg, fileReads_nil, fileReads_cons, Event.isRead]
    · intro cfg h; cases h
    · intro _
      simp [main_config_error env flags e hcfg, remoteCalls_nil, remoteCalls_cons,
        Event.isRemote]
    · intro cert key chain
      exact (main_config_error env { flags with cert := cert, key := key, chain := chain } e hcfg).trans (main_config_error env flags e hcfg).symm
  | ok cfg =>
    by_cases hn : flags.name = ""
    · have hm := main_delete_usage env flags cfg hcfg hl hd hn
      refine ⟨?_, ?_, ?_, ?_, ?_⟩
      · simp [hm, remoteCalls_nil, remoteCalls_cons, Event.isRemote]
      · simp [hm, fileReads_nil, fileReads_cons, Event.isRead]
      · intro _ _ h; exact absurd hn h
      · intro _
        simp [hm, remoteCalls_nil, remoteCalls_cons, Event.isRemote]
      · intro cert key chain
        exact (main_delete_usage env { flags with cert := cert, key := key, chain := chain } cfg hcfg hl hd hn).trans hm.symm
    · have hcalls : remoteCalls (main env flags).trace
          = [.DeleteServerCertificate { ServerCertificateName := some flags.name }] := by
        rw [main_delete env flags cfg hcfg hl hd hn, boot_report, remoteCalls_cons]
        simp [Event.isRemote, remoteCalls_report, (DeleteCertificate_calls _ _).1]
      refine ⟨?_, ?_, ?_, ?_, ?_⟩
      · simp [hcalls]
      · rw [main_delete env flags cfg hcfg hl hd hn, boot_report, fileReads_cons]
        simp [Event.isRead, fileReads_report, (DeleteCertificate_calls _ _).2.1]
      · intro _ _ _; exact hcalls
      · intro h; exact absurd h hn
      · intro cert key chain
        exact (main_delete env { flags with cert := cert, key := key, chain := chain } cfg hcfg hl hd hn).trans
          (main_delete env flags cfg hcfg hl hd hn).symm

/-- The upload mode: with neither `-list` nor `-delete`, the only remote call
is an upload call; a missing required flag ends the run with exit code 1
before any file read or remote call. -/
theorem main_upload_mode {Time : Type} (env : Env Time) (flags : Flags)
    (hl : flags.list = false) (hd : flags.delete = false) :
    (∀ e ∈ remoteCalls (main env flags).trace, ∃ input, e = .UploadServerCertificate input)
      ∧ (remoteCalls (main env flags).trace).length ≤ 1
      ∧ ((flags.name = "" ∨ flags.cert = "" ∨ flags.key = "") →
          (main env flags).res = .exit 1
            ∧ remoteCalls (main env flags).trace = []
            ∧ fileReads (main env flags).trace = [])
      ∧ (∀ cfg, env.LoadDefaultConfig flags.region = .ok cfg →
          ¬ (flags.name = "" ∨ flags.cert = "" ∨ flags.key = "") →
          main env flags = Run.bind (Run.emit (.LoadDefaultConfig flags.region) ())
            (fun _ => report (UploadCertificate env (NewCertUploader env cfg)
              flags.name flags.cert flags.key flags.chain))) := by
  cases hcfg : env.LoadDefaultConfig flags.region with
  | error e =>
    simp [main_config_error env flags e hcfg, remoteCalls_nil, remoteCalls_cons, fileReads_nil,
      fileReads_cons, Event.isRemote, Event.isRead]
  | ok cfg =>
    by_cases hv : flags.name = "" ∨ flags.cert = "" ∨ flags.key = ""
    · have hm := main_upload_usage env flags cfg hcfg hl hd hv
      simp [hm, hv, remoteCalls_nil, remoteCalls_cons, fileReads_nil, fileReads_cons,
        Event.isRemote, Event.isRead]
    · have hm := main_upload env flags cfg hcfg hl hd hv
      have hcalls : remoteCalls (main env flags).trace
          = remoteCalls (UploadCertificate env (NewCertUploader env cfg)
              flags.name flags.cert flags.key flags.chain).trace := by
        rw [hm, boot_report, remoteCalls_cons]
        simp [Event.isRemote, remoteCalls_report]
      refine ⟨?_, ?_, fun h => absurd h hv, fun _ h _ => by cases h; exact hm⟩
      · rw [hcalls]
        rcases (UploadCertificate_calls env (NewCertUploader env cfg)
          flags.name flags.cert flags.key flags.chain).1 with h | ⟨input, h⟩ <;> simp [h]
      · rw [hcalls]
        rcases (UploadCertificate_calls env (NewCertUploader env cfg)
          flags.name flags.cert flags.key flags.chain).1 with h | ⟨input, h⟩ <;> simp [h]


/-- Claim C9.  For every environment and all flag values: (1) the run of `main`
holds at most one remote call.  (2) With `-list` set, every remote call of the
run is the list call, no file is read, the list call is made once the
configuration has loaded, and the run is the same whatever the values of
`-name`, `-cert`, `-key`, `-chain` and `-delete` (they are not looked at).
(3) With `-list` unset and `-delete` set, every remote call is the delete call
for `-name`, no file is read, that call is made once the configuration has
loaded and `-name` is not empty, an empty `-name` ends the run with exit code 1
without a remote call, and the run does not depend on `-cert`, `-key`,
`-chain`.  (4) With both unset, every remote call is an upload call; when
`-name`, `-cert` or `-key` is empty the run ends with exit code 1 without any
file read or remote call; otherwise, once the configuration has loaded, `main`
runs `UploadCertificate` on the flags and reports its result.  (5) A file read
or an upload call in the run implies that `-list` and `-delete` are both
unset. -/
theorem C9_mode_selection {Time : Type} (env : Env Time) (flags : Flags) :
    (remoteCalls (main env flags).trace).length ≤ 1
      ∧ (flags.list = true →
          (∀ e ∈ remoteCalls (main env flags).trace, e = .ListServerCertificates)
            ∧ fileReads (main env flags).trace = []
            ∧ (∀ cfg, env.LoadDefaultConfig flags.region = .ok cfg →
                remoteCalls (main env flags).trace = [.ListServerCertificates])
            ∧ (∀ (name cert key chain : String) (delete : Bool),
                main env { flags with name := name, cert := cert, key := key, chain := chain,
                                      delete := delete } = main env flags))
      ∧ (flags.list = false → flags.delete = true →
          (∀ e ∈ remoteCalls (main env flags).trace,
              e = .DeleteServerCertificate { ServerCertificateName := some flags.name })
            ∧ fileReads (main env flags).trace = []
            ∧ (∀ cfg, env.LoadDefaultConfig flags.region = .ok cfg → flags.name ≠ "" →
                remoteCalls (main env flags).trace
                  = [.DeleteServerCertificate { ServerCertificateName := some flags.name }])
            ∧ (flags.name = "" → (main env flags).res = .exit 1
                ∧ remoteCalls (main env flags).trace = [])
            ∧ (∀ (cert key chain : String),
                main env { flags with cert := cert, key := key, chain := chain }
                  = main env flags))
      ∧ (flags.list = false → flags.delete = false →
          (∀ e ∈ remoteCalls (main env flags).trace, ∃ input, e = .UploadServerCertificate input)
            ∧ (remoteCalls (main env flags).trace).length ≤ 1
            ∧ ((flags.name = "" ∨ flags.cert = "" ∨ flags.key = "") →
                (main env flags).res = .exit 1
                  ∧ remoteCalls (main env flags).trace = []
                  ∧ fileReads (main env flags).trace = [])
            ∧ (∀ cfg, env.LoadDefaultConfig flags.region = .ok cfg →
                ¬ (flags.name = "" ∨ flags.cert = "" ∨ flags.key = "") →
                main env flags = Run.bind (Run.emit (.LoadDefaultConfig flags.region) ())
                  (fun _ => report (UploadCertificate env (NewCertUploader env cfg)
                    flags.name flags.cert flags.key flags.chain))))
      ∧ ((fileReads (main env flags).trace ≠ []
            ∨ ∃ input, .UploadServerCertificate input ∈ (main env flags).trace) →
          flags.list = false ∧ flags.delete = false) := by
  refine ⟨?_, main_list_mode env flags, main_delete_mode env flags, main_upload_mode env flags,
    ?_⟩
  · cases hl : flags.list with
    | true =>
      cases hcfg : env.LoadDefaultConfig flags.region with
      | error e =>
        simp [main_config_error env flags e hcfg, remoteCalls_nil, remoteCalls_cons,
          Event.isRemote]
      | ok cfg => simp [(main_list_mode env flags hl).2.2.1 cfg hcfg]
    | false =>
      cases hd : flags.delete with
      | false => exact (main_upload_mode env flags hl hd).2.1
      | true =>
        cases hcfg : env.LoadDefaultConfig flags.region with
        | error e =>
          simp [main_config_error env flags e hcfg, remoteCalls_nil, remoteCalls_cons,
            Event.isRemote]
        | ok cfg =>
          by_cases hn : flags.name = ""
          · simp [((main_delete_mode env flags hl hd).2.2.2.1 hn).2]
          · simp [(main_delete_mode env flags hl hd).2.2.1 cfg hcfg hn]
  · intro h
    cases hl : flags.list with
    | true =>
      exfalso
      rcases h with h | ⟨input, h⟩
      · exact h (main_list_mode env flags hl).2.1
      · have h2 : Event.UploadServerCertificate input ∈ remoteCalls (main env flags).trace :=
          List.mem_filter.2 ⟨h, rfl⟩
        cases (main_list_mode env flags hl).1 _ h2
    | false =>
      cases hd : flags.delete with
      | false => exact ⟨rfl, rfl⟩
      | true =>
        exfalso
        rcases h with h | ⟨input, h⟩
        · exact h (main_delete_mode env flags hl hd).2.1
        · have h2 : Event.UploadServerCertificate input ∈ remoteCalls (main env flags).trace :=
            List.mem_filter.2 ⟨h, rfl⟩
          cases (main_delete_mode env flags hl hd).1 _ h2

/-- Claim C9 on a sample world: with `-list -delete -name web -cert cert.pem
-key key.pem` the only remote call is the list call. -/
theorem C9_mode_selection_witness :
    remoteCalls (main (sampleEnv (.ok ⟨[]⟩) (.ok ⟨none⟩))
        { Flags.default with list := true, delete := true, name := "web", cert := "cert.pem",
                             key := "key.pem" }).trace
      = [.ListServerCertificates] :=
  ((C9_mode_selection (sampleEnv (.ok ⟨[]⟩) (.ok ⟨none⟩))
      { Flags.default with list := true, delete := true, name := "web", cert := "cert.pem",
                           key := "key.pem" }).2.1 rfl).2.2.1 ⟨"us-east-1"⟩ rfl

/-! ## Absent fields in a successful answer (C10, C1) -/

/-- Claim C10 fails on the code.  An upload whose remote call succeeds with
an answer that carries no metadata record does not return: after the success
line, the dereference of the absent record panics.  A listing whose remote
call succeeds with a record that has no expiration does not return either:
after the ARN line of that record, the dereference of the absent expiration
panics. -/
theorem C10_absent_field_panics :
    UploadCertificate (sampleEnv (.ok ⟨[]⟩) (.ok ⟨none⟩))
        ⟨sampleClient (.ok ⟨[]⟩) (.ok ⟨none⟩)⟩ "web" "cert.pem" "key.pem" ""
        = ⟨.panic, [.ReadFile "cert.pem", .ReadFile "key.pem",
            .UploadServerCertificate
              { ServerCertificateName := some "web"
                CertificateBody := some "[cert.pem]"
                PrivateKey := some "[key.pem]"
                CertificateChain := none },
            .Stdout "Certificate uploaded successfully!\n"]⟩
      ∧ ListCertificates
          (sampleEnv (.ok ⟨[⟨some "web", some "ASCA1", some "arn:1", none⟩]⟩) (.ok ⟨none⟩))
          ⟨sampleClient (.ok ⟨[⟨some "web", some "ASCA1", some "arn:1", none⟩]⟩) (.ok ⟨none⟩)⟩
        = ⟨.panic, [.ListServerCertificates, .Stdout "Server Certificates:\n",
            .Stdout "  - Name: web\n", .Stdout "    ID: ASCA1\n", .Stdout "    ARN: arn:1\n"]⟩ :=
  ⟨rfl, rfl⟩

/-- Claim C1 fails on the code.  With `-list`, a configuration that loads and
a successful list answer holding a record without expiration, `main` panics
after printing part of the listing, and the process ends with exit code 2,
neither 0 nor 1.  The same exit code results from an upload whose successful
answer carries no metadata record. -/
theorem C1_exit_code_two_on_absent_field :
    main (sampleEnv (.ok ⟨[⟨some "web", some "ASCA1", some "arn:1", none⟩]⟩) (.ok ⟨none⟩))
        { Flags.default with list := true }
        = ⟨.panic, [.LoadDefaultConfig "us-east-1", .ListServerCertificates,
            .Stdout "Server Certificates:\n", .Stdout "  - Name: web\n",
            .Stdout "    ID: ASCA1\n", .Stdout "    ARN: arn:1\n"]⟩
      ∧ exitCode (main
          (sampleEnv (.ok ⟨[⟨some "web", some "ASCA1", some "arn:1", none⟩]⟩) (.ok ⟨none⟩))
          { Flags.default with list := true }).res = 2
      ∧ exitCode (main (sampleEnv (.ok ⟨[]⟩) (.ok ⟨none⟩))
          { Flags.default with name := "web", cert := "cert.pem", key := "key.pem" }).res = 2 :=
  ⟨rfl, rfl, rfl⟩


/-- The exit code of a run of `main` that reaches an operation which does
not panic: 0 exactly when the operation returned nil, and otherwise 1 after a
write to standard error. -/
theorem report_exit (region : String) (op : Run (Option Error))
    (hne : ∀ code, op.res ≠ .exit code)
    (hnp : (Run.bind (Run.emit (.LoadDefaultConfig region) ()) (fun _ => report op)).res
      ≠ .panic) :
    (exitCode (Run.bind (Run.emit (.LoadDefaultConfig region) ()) (fun _ => report op)).res = 0
        ↔ op.res = .ret none)
      ∧ (exitCode (Run.bind (Run.emit (.LoadDefaultConfig region) ()) (fun _ => report op)).res = 0
          ∨ exitCode (Run.bind (Run.emit (.LoadDefaultConfig region) ())
              (fun _ => report op)).res = 1)
      ∧ (exitCode (Run.bind (Run.emit (.LoadDefaultConfig region) ()) (fun _ => report op)).res = 1
          → stderr (Run.bind (Run.emit (.LoadDefaultConfig region) ())
              (fun _ => report op)).trace ≠ []) := by
  rw [boot_report] at hnp ⊢
  rw [report_res] at hnp ⊢
  rw [report_trace]
  rcases op with ⟨(_ | err) | _ | code, t⟩
  · simp [exitCode]
  · simp [exitCode, stderr, stderr_append]
  · simp at hnp
  · exact absurd rfl (hne code)

/-- The exit codes of `main` on the runs that do not panic: the exit code is 0
or 1; it is 1 only after a write to standard error; and it is 0 exactly when
the configuration loaded and the selected operation ran and returned nil. -/
theorem main_exit_code_unless_panic {Time : Type} (env : Env Time) (flags : Flags)
    (hnp : (main env flags).res ≠ .panic) :
    (exitCode (main env flags).res = 0 ∨ exitCode (main env flags).res = 1)
      ∧ (exitCode (main env flags).res = 1 → stderr (main env flags).trace ≠ [])
      ∧ (exitCode (main env flags).res = 0 ↔
          ∃ cfg op, env.LoadDefaultConfig flags.region = .ok cfg
            ∧ selected env cfg flags = some op ∧ op.res = .ret none) := by
  cases hcfg : env.LoadDefaultConfig flags.region with
  | error e =>
    rw [main_config_error env flags e hcfg]
    simp [exitCode, stderr]
  | ok cfg =>
    cases hl : flags.list with
    | true =>
      have hm := main_list env flags cfg hcfg hl
      rw [hm] at hnp ⊢
      obtain ⟨h1, h2, h3⟩ := report_exit flags.region _ (ListCertificates_calls env _).2.2 hnp
      refine ⟨h2, h3, h1.trans ?_⟩
      simp [selected, hl]
    | false =>
      cases hd : flags.delete with
      | true =>
        by_cases hn : flags.name = ""
        · rw [main_delete_usage env flags cfg hcfg hl hd hn]
          simp [exitCode, stderr, selected, hl, hd, hn]
        · have hm := main_delete env flags cfg hcfg hl hd hn
          rw [hm] at hnp ⊢
          obtain ⟨h1, h2, h3⟩ := report_exit flags.region _ (DeleteCertificate_calls _ _).2.2 hnp
          refine ⟨h2, h3, h1.trans ?_⟩
          simp [selected, hl, hd, hn]
      | false =>
        by_cases hv : flags.name = "" ∨ flags.cert = "" ∨ flags.key = ""
        · rw [main_upload_usage env flags cfg hcfg hl hd hv]
          simp [exitCode, stderr, selected, hl, hd, hv]
        · have hm := main_upload env flags cfg hcfg hl hd hv
          rw [hm] at hnp ⊢
          obtain ⟨h1, h2, h3⟩ :=
            report_exit flags.region _ (UploadCertificate_calls env _ _ _ _ _).2 hnp
          refine ⟨h2, h3, h1.trans ?_⟩
          simp [selected, hl, hd, hv]

/-- The lemma `main_exit_code_unless_panic` on a sample world: a delete that
the service accepts ends with exit code 0. -/
theorem main_exit_code_unless_panic_witness :
    exitCode (main (sampleEnv (.ok ⟨[]⟩) (.ok ⟨none⟩))
        { Flags.default with delete := true, name := "web" }).res = 0
      ∨ exitCode (main (sampleEnv (.ok ⟨[]⟩) (.ok ⟨none⟩))
        { Flags.default with delete := true, name := "web" }).res = 1 :=
  (main_exit_code_unless_panic (sampleEnv (.ok ⟨[]⟩) (.ok ⟨none⟩))
    { Flags.default with delete := true, name := "web" } (by decide)).1

end UploadIamCerts
